import Mathlib

/-!
Verification of the Windows-MCP UI-tree scanning core.

This file gives a shallow embedding, in Lean 4, of the scan-and-classify
engine of the repository (files `windows_mcp/tree/config.py`,
`windows_mcp/tree/views.py`, `windows_mcp/tree/service.py`,
`windows_mcp/desktop/config.py`, `windows_mcp/desktop/views.py`,
`windows_mcp/desktop/service.py`, `windows_mcp/server.py`) and proves or
refutes the stated properties of that engine.

Conventions of the embedding:
* Python machine integers are modelled as `Int` (no overflow is possible in
  the modelled code paths), wall-clock times and float scroll percentages /
  scale factors as `ℚ`.
* A Python call that may raise is modelled with `Option`: `none` is the
  raised exception swallowed by the corresponding `try/except`.
* The UI Automation bridge is modelled as an abstract graph: a type `σ` of
  node identities, an attribute map `σ → UANode`, and a children map
  `σ → Option (List σ)` (`none` models `GetChildren()` raising).  Cyclic or
  infinite accessibility trees are therefore expressible.
-/

namespace WindowsMCP

/-! ### tree/config.py -/

/-- Control types that are interactive (`INTERACTIVE_CONTROL_TYPE_NAMES`,
tree/config.py). -/
def INTERACTIVE_CONTROL_TYPE_NAMES : List String :=
  ["ButtonControl", "ListItemControl", "MenuItemControl", "DocumentControl",
   "EditControl", "CheckBoxControl", "RadioButtonControl", "ComboBoxControl",
   "HyperlinkControl", "SplitButtonControl", "TabItemControl",
   "TreeItemControl", "DataItemControl", "HeaderItemControl", "TextBoxControl",
   "SpinnerControl", "ScrollBarControl", "ImageControl"]

/-- Control types that are informative (`INFORMATIVE_CONTROL_TYPE_NAMES`,
tree/config.py). -/
def INFORMATIVE_CONTROL_TYPE_NAMES : List String :=
  ["TextControl", "ImageControl", "GroupControl", "PaneControl"]

/-- Maximum retries for thread operations (`THREAD_MAX_RETRIES`,
tree/config.py). -/
def THREAD_MAX_RETRIES : Nat := 3

/-- Minimum area in pixels for element visibility (`MIN_ELEMENT_AREA`,
tree/config.py). -/
def MIN_ELEMENT_AREA : Int := 10

/-- Annotation padding in pixels (`ANNOTATION_PADDING`, tree/config.py). -/
def ANNOTATION_PADDING : Int := 20

/-! ### desktop/config.py -/

/-- Apps to avoid processing (`AVOIDED_APPS`, desktop/config.py). -/
def AVOIDED_APPS : List String :=
  ["AgentUI", "SystemSettings", "ShellExperienceHost"]

/-- Apps to exclude from (normal) processing — these system-chrome window
classes are always included in the scan (`EXCLUDED_APPS`,
desktop/config.py). -/
def EXCLUDED_APPS : List String :=
  ["Progman", "Shell_TrayWnd", "Shell_SecondaryTrayWnd",
   "Microsoft.UI.Content.PopupWindowSiteBridge",
   "Windows.UI.Core.CoreWindow", "IME", "MSCTFIME UI"]

/-! ### The uiautomation `Rect` type (external bridge) -/

/-- Bounding rectangle as exposed by the uiautomation bridge. -/
structure Rect where
  left : Int
  top : Int
  right : Int
  bottom : Int
deriving DecidableEq, Repr

/-- `Rect.width()` of the bridge. -/
def Rect.width (r : Rect) : Int := r.right - r.left

/-- `Rect.height()` of the bridge. -/
def Rect.height (r : Rect) : Int := r.bottom - r.top

/-- `Rect.isempty()` of the bridge: a rectangle with no positive extent on
some axis is empty. -/
def Rect.isempty (r : Rect) : Bool := r.width ≤ 0 || r.height ≤ 0

/-- `Rect.xcenter()` of the bridge (`left + width // 2`; the divisor is
positive so Python floor division agrees with `Int` division here). -/
def Rect.xcenter (r : Rect) : Int := r.left + r.width / 2

/-- `Rect.ycenter()` of the bridge (`top + height // 2`). -/
def Rect.ycenter (r : Rect) : Int := r.top + r.height / 2

/-! ### tree/views.py -/

/-- Python truthiness fallback `a or b` on strings: the empty string is
falsy. -/
def pyOr (a b : String) : String := if a = "" then b else a

/-- Python `str.strip()`: remove leading and trailing whitespace.  Defined
by structural recursion on the character list so that concrete instances
evaluate inside the kernel. -/
def pyStrip (s : String) : String :=
  ⟨((s.data.dropWhile Char.isWhitespace).reverse.dropWhile
      Char.isWhitespace).reverse⟩

/-- `BoundingBox` dataclass (tree/views.py). -/
structure BoundingBox where
  left : Int
  top : Int
  right : Int
  bottom : Int
  width : Int
  height : Int
deriving DecidableEq, Repr

/-- Area of a bounding box, the quantity the spec's minimum-area invariant
speaks about. -/
def BoundingBox.area (b : BoundingBox) : Int := b.width * b.height

/-- `Center` dataclass (tree/views.py). -/
structure Center where
  x : Int
  y : Int
deriving DecidableEq, Repr

/-- `Center.to_string` (tree/views.py). -/
def Center.to_string (c : Center) : String :=
  "(" ++ toString c.x ++ "," ++ toString c.y ++ ")"

/-- `Center.to_list` (tree/views.py). -/
def Center.to_list (c : Center) : List Int := [c.x, c.y]

/-- `TreeElementNode` dataclass: an interactive UI element
(tree/views.py). -/
structure TreeElementNode where
  name : String
  control_type : String
  value : String
  shortcut : String
  bounding_box : BoundingBox
  center : Center
  app_name : String
  is_enabled : Bool
  is_keyboard_focusable : Bool
deriving DecidableEq, Repr

/-- `TextElementNode` dataclass: an informative text element
(tree/views.py). -/
structure TextElementNode where
  name : String
  app_name : String
  control_type : String
deriving DecidableEq, Repr

/-- `ScrollElementNode` dataclass: a scrollable UI element
(tree/views.py). -/
structure ScrollElementNode where
  name : String
  control_type : String
  app_name : String
  bounding_box : BoundingBox
  center : Center
  horizontal_scrollable : Bool
  horizontal_scroll_percent : ℚ
  vertical_scrollable : Bool
  vertical_scroll_percent : ℚ
  is_focused : Bool
deriving DecidableEq, Repr

/-- `TreeState` dataclass: three ordered sequences forming one scan
generation (tree/views.py). -/
structure TreeState where
  interactive_nodes : List TreeElementNode
  informative_nodes : List TextElementNode
  scrollable_nodes : List ScrollElementNode
deriving DecidableEq, Repr

/-- `TreeState()` with the default empty factories. -/
def TreeState.default : TreeState := ⟨[], [], []⟩

/-- `TreeElementNode.to_row(index)` (tree/views.py); every cell is rendered
with `str(cell)` when the table is assembled, so the row is modelled
directly as the list of cell strings.  The first cell is the label. -/
def TreeElementNode.to_row (n : TreeElementNode) (index : Nat) : List String :=
  [toString index, n.app_name, n.control_type,
   pyOr n.name "''", pyOr n.value "''", pyOr n.shortcut "None",
   n.center.to_string]

/-- `TextElementNode.to_row()` (tree/views.py). -/
def TextElementNode.to_row (n : TextElementNode) : List String :=
  [n.app_name, n.control_type, pyOr n.name "''"]

/-- `ScrollElementNode.to_row(index, base_index)` (tree/views.py).  The
first cell is `base_index + index`.  The percent cells are kept as exact
rationals (the source renders them with one decimal); no claim depends on
the decimal rendering. -/
def ScrollElementNode.to_row (n : ScrollElementNode) (index base_index : Nat) :
    List String :=
  [toString (base_index + index), n.app_name, n.control_type,
   pyOr n.name "''", n.center.to_string,
   if n.horizontal_scrollable then "Yes" else "No",
   if n.horizontal_scrollable then toString n.horizontal_scroll_percent else "N/A",
   if n.vertical_scrollable then "Yes" else "No",
   if n.vertical_scrollable then toString n.vertical_scroll_percent else "N/A",
   if n.is_focused then "Yes" else "No"]

/-- The structured per-element form produced by
`TreeElementNode.to_dict(index)` (tree/views.py). -/
structure InteractiveDict where
  label : Nat
  app_name : String
  control_type : String
  name : String
  value : String
  shortcut : String
  coordinates : List Int
  bounding_box : List Int
  is_enabled : Bool
  is_keyboard_focusable : Bool
deriving DecidableEq, Repr

/-- `TreeElementNode.to_dict(index)` (tree/views.py). -/
def TreeElementNode.to_dict (n : TreeElementNode) (index : Nat) :
    InteractiveDict :=
  ⟨index, n.app_name, n.control_type, n.name, n.value, n.shortcut,
   n.center.to_list,
   [n.bounding_box.left, n.bounding_box.top, n.bounding_box.right,
    n.bounding_box.bottom],
   n.is_enabled, n.is_keyboard_focusable⟩

/-- The structured per-element form produced by
`ScrollElementNode.to_dict(index, base_index)` (tree/views.py). -/
structure ScrollDict where
  label : Nat
  app_name : String
  control_type : String
  name : String
  coordinates : List Int
  horizontal_scrollable : Bool
  horizontal_scroll_percent : ℚ
  vertical_scrollable : Bool
  vertical_scroll_percent : ℚ
  is_focused : Bool
deriving DecidableEq, Repr

/-- `ScrollElementNode.to_dict(index, base_index)` (tree/views.py). -/
def ScrollElementNode.to_dict (n : ScrollElementNode) (index base_index : Nat) :
    ScrollDict :=
  ⟨base_index + index, n.app_name, n.control_type, n.name,
   n.center.to_list, n.horizontal_scrollable, n.horizontal_scroll_percent,
   n.vertical_scrollable, n.vertical_scroll_percent, n.is_focused⟩

/-- The row list built inside `TreeState.interactive_elements_to_string`
(tree/views.py): `rows = [node.to_row(idx) for idx, node in
enumerate(self.interactive_nodes)]`. -/
def TreeState.interactiveRows (ts : TreeState) : List (List String) :=
  ts.interactive_nodes.enum.map fun p => p.2.to_row p.1

/-- The row list built inside `TreeState.scrollable_elements_to_string`
(tree/views.py): `base_index = len(self.interactive_nodes)` and
`rows = [node.to_row(idx, base_index) for idx, node in
enumerate(self.scrollable_nodes)]`. -/
def TreeState.scrollableRows (ts : TreeState) : List (List String) :=
  ts.scrollable_nodes.enum.map fun p =>
    p.2.to_row p.1 ts.interactive_nodes.length

/-- The structured interactive dictionaries, one per interactive element in
position order. -/
def TreeState.interactiveDicts (ts : TreeState) : List InteractiveDict :=
  ts.interactive_nodes.enum.map fun p => p.2.to_dict p.1

/-- The structured scrollable dictionaries, one per scrollable element in
position order, labels offset by the number of interactive elements. -/
def TreeState.scrollableDicts (ts : TreeState) : List ScrollDict :=
  ts.scrollable_nodes.enum.map fun p =>
    p.2.to_dict p.1 ts.interactive_nodes.length

/-! ### Cache (`Tree.__init__` / `Tree.get_state`, tree/service.py) -/

/-- The mutable state of a `Tree` service instance: `_last_scan_time` and
the `_cached_state` attribute (absent until the first stored scan, hence an
`Option`). -/
structure TreeService where
  last_scan_time : ℚ
  cached_state : Option TreeState
deriving DecidableEq, Repr

/-- `Tree.__init__` (tree/service.py): `_last_scan_time = 0`, and no
`_cached_state` attribute yet. -/
def Tree.init : TreeService := ⟨0, none⟩

/-- `Tree.get_state(force_refresh)` (tree/service.py), with the wall clock
`time.time()` passed in as `now` and the result of `_scan_tree()` passed in
as `scan_result` (tree scanning is a separate concern, modelled below).
Returns the returned snapshot together with the updated service state.
On the cache path with no `_cached_state` attribute the source calls
`_scan_tree()` and returns it without storing it. -/
def Tree.get_state (t : TreeService) (force_refresh : Bool) (now : ℚ)
    (scan_result : TreeState) : TreeState × TreeService :=
  if force_refresh = false ∧ now - t.last_scan_time < 2 then
    match t.cached_state with
    | some s => (s, t)
    | none => (scan_result, t)
  else
    (scan_result, ⟨now, some scan_result⟩)

/-- `tool_get_desktop_state` (server.py): the handler constructs a
brand-new `Tree(desktop_service)` on every invocation and calls
`tree.get_state()` with the default `force_refresh=False`. -/
def tool_get_desktop_state (now : ℚ) (scan_result : TreeState) :
    TreeState × TreeService :=
  Tree.get_state Tree.init false now scan_result

/-! ### The accessibility bridge node model -/

/-- Per-axis scroll capability as exposed by `GetScrollPattern()`. -/
structure ScrollPatternInfo where
  HorizontallyScrollable : Bool
  HorizontalScrollPercent : ℚ
  VerticallyScrollable : Bool
  VerticalScrollPercent : ℚ
deriving DecidableEq, Repr

/-- The attributes of one accessibility node that the classifier reads.
`legacyValue = none` models `GetLegacyIAccessiblePattern()` (or reading its
`Value`) raising, which the source swallows into an empty value;
`scrollPattern = none` models `GetScrollPattern()` raising, which the
source treats as "not scrollable". -/
structure UANode where
  Name : String
  ClassName : String
  ControlTypeName : String
  LocalizedControlType : String
  AcceleratorKey : String
  BoundingRectangle : Rect
  IsOffscreen : Bool
  IsControlElement : Bool
  IsEnabled : Bool
  IsKeyboardFocusable : Bool
  HasKeyboardFocus : Bool
  legacyValue : Option String
  scrollPattern : Option ScrollPatternInfo
deriving DecidableEq, Repr

/-- An accessibility tree presented as a graph over an abstract type of
node identities; `children s = none` models `GetChildren()` raising (the
source abandons that subtree).  Cycles and infinite unfoldings are
expressible. -/
structure UAGraph (σ : Type) where
  attrs : σ → UANode
  children : σ → Option (List σ)

/-! ### Classification predicates (tree/service.py) -/

/-- `Tree._is_element_visible(node, threshold)` (tree/service.py): empty
rectangles are invisible, otherwise the area must exceed the threshold, the
node must not be off-screen (edit controls exempt) and must be a genuine
control element. -/
def is_element_visible (n : UANode) (threshold : Int) : Bool :=
  if n.BoundingRectangle.isempty then false
  else
    let area := n.BoundingRectangle.width * n.BoundingRectangle.height
    let is_offscreen := !n.IsOffscreen || n.ControlTypeName ∈ ["EditControl"]
    decide (area > threshold) && is_offscreen && n.IsControlElement

/-- `Tree._is_element_enabled(node)` (tree/service.py). -/
def is_element_enabled (n : UANode) : Bool := n.IsEnabled

/-- `Tree._is_element_interactive(node)` (tree/service.py). -/
def is_element_interactive (n : UANode) : Bool :=
  n.ControlTypeName ∈ INTERACTIVE_CONTROL_TYPE_NAMES &&
    is_element_visible n MIN_ELEMENT_AREA && is_element_enabled n

/-- `Tree._is_element_text(node)` (tree/service.py). -/
def is_element_text (n : UANode) : Bool :=
  n.ControlTypeName ∈ INFORMATIVE_CONTROL_TYPE_NAMES &&
    is_element_visible n MIN_ELEMENT_AREA && is_element_enabled n &&
    !((pyStrip n.Name) = "")

/-- `Tree._is_element_scrollable(node)` (tree/service.py): the scroll
pattern must be obtainable and at least one axis scrollable. -/
def is_element_scrollable (n : UANode) : Bool :=
  match n.scrollPattern with
  | none => false
  | some sp => sp.VerticallyScrollable || sp.HorizontallyScrollable

/-! ### Per-node classification (body of `tree_traversal`,
tree/service.py) -/

/-- A classified element: the single category a visited node contributes
to. -/
inductive UIElement where
  | interactive (e : TreeElementNode)
  | informative (e : TextElementNode)
  | scrollable (e : ScrollElementNode)
deriving DecidableEq, Repr

/-- Category tags for classified elements. -/
inductive UICategory where
  | interactive
  | informative
  | scrollable
deriving DecidableEq, Repr

/-- The tag of a classified element. -/
def UIElement.tag : UIElement → UICategory
  | .interactive _ => .interactive
  | .informative _ => .informative
  | .scrollable _ => .scrollable

/-- The `BoundingBox` record built from a bridge rectangle inside
`tree_traversal` (tree/service.py). -/
def boxOfRect (box : Rect) : BoundingBox :=
  ⟨box.left, box.top, box.right, box.bottom, box.width, box.height⟩

/-- The stripped accessibility value read inside the interactive branch:
`legacy_pattern.Value.strip() if legacy_pattern.Value else ""`, with the
surrounding `try/except` degrading any failure to the empty string. -/
def legacy_value (n : UANode) : String :=
  match n.legacyValue with
  | some v => pyStrip v
  | none => ""

/-- The classification performed on one visited node by the `if/elif`
chain in `tree_traversal` (tree/service.py, lines 194-253): Scrollable
first, else Interactive, else Informative, else nothing.  A scrollable or
interactive node with an empty rectangle contributes nothing (and is not
reconsidered for a lower-priority category). -/
def classify_node (app_name : String) (n : UANode) : Option UIElement :=
  if is_element_scrollable n then
    match n.scrollPattern with
    | some sp =>
      if n.BoundingRectangle.isempty then none
      else some (.scrollable
        ⟨pyOr (pyOr (pyStrip n.Name) n.LocalizedControlType) "Scrollable",
         pyOr n.LocalizedControlType "Unknown",
         app_name, boxOfRect n.BoundingRectangle,
         ⟨n.BoundingRectangle.xcenter, n.BoundingRectangle.ycenter⟩,
         sp.HorizontallyScrollable,
         if sp.HorizontallyScrollable then sp.HorizontalScrollPercent else 0,
         sp.VerticallyScrollable,
         if sp.VerticallyScrollable then sp.VerticalScrollPercent else 0,
         n.HasKeyboardFocus⟩)
    | none => none
  else if is_element_interactive n then
    if n.BoundingRectangle.isempty then none
    else some (.interactive
      ⟨pyOr (pyOr (pyStrip n.Name) n.LocalizedControlType) "",
       pyOr n.LocalizedControlType "Unknown",
       legacy_value n, pyOr n.AcceleratorKey "",
       boxOfRect n.BoundingRectangle,
       ⟨n.BoundingRectangle.xcenter, n.BoundingRectangle.ycenter⟩,
       app_name, n.IsEnabled, n.IsKeyboardFocusable⟩)
  else if is_element_text n then
    some (.informative
      ⟨pyOr (pyStrip n.Name) "", app_name, pyOr n.LocalizedControlType "Text"⟩)
  else none

/-! ### The depth-capped walk (`tree_traversal`, tree/service.py) -/

/-- Fuel-indexed form of the recursive walk.  The source guard is
`if depth > 20: return`, children are visited at `depth + 1`; with
`fuel = 21 - depth` this is exactly structural recursion on the fuel, which
terminates for every children map, cyclic graphs included. -/
def tree_traversal_fuel {σ : Type} (g : UAGraph σ) (app_name : String) :
    Nat → σ → List UIElement
  | 0, _ => []
  | fuel + 1, s =>
    (classify_node app_name (g.attrs s)).toList ++
      match g.children s with
      | none => []
      | some cs => (cs.map (tree_traversal_fuel g app_name fuel)).flatten

/-- `tree_traversal(current_node, depth)` (tree/service.py): the depth-first
pre-order walk with the hard depth cap of 20, producing the classified
elements in visit order. -/
def tree_traversal {σ : Type} (g : UAGraph σ) (app_name : String) (s : σ)
    (depth : Nat) : List UIElement :=
  tree_traversal_fuel g app_name (21 - depth) s

/-- The nodes visited by `tree_traversal`, with the depth at which each is
visited, in visit order (fuel-indexed form, mirroring
`tree_traversal_fuel`). -/
def visited_nodes_fuel {σ : Type} (g : UAGraph σ) :
    Nat → Nat → σ → List (σ × Nat)
  | 0, _, _ => []
  | fuel + 1, depth, s =>
    (s, depth) ::
      match g.children s with
      | none => []
      | some cs => (cs.map (visited_nodes_fuel g fuel (depth + 1))).flatten

/-- The nodes visited by `tree_traversal` starting at `s` with the given
depth, each paired with its visit depth. -/
def visited_nodes {σ : Type} (g : UAGraph σ) (s : σ) (depth : Nat) :
    List (σ × Nat) :=
  visited_nodes_fuel g (21 - depth) depth s

/-! ### Per-application extraction (`Tree._get_nodes`, tree/service.py) -/

/-- The friendly-name remap applied to an application window's name
(`class_name_map` in `Tree._get_nodes`): `app_name = node.Name.strip() or
"Unknown"`, then known shell classes are remapped. -/
def resolve_app_name (n : UANode) : String :=
  let base := pyOr (pyStrip n.Name) "Unknown"
  if n.ClassName = "Progman" then "Desktop"
  else if n.ClassName = "Shell_TrayWnd" then "Taskbar"
  else if n.ClassName = "Shell_SecondaryTrayWnd" then "Taskbar"
  else if n.ClassName = "Microsoft.UI.Content.PopupWindowSiteBridge" then
    "Context Menu"
  else base

/-- The result triple of one application's traversal. -/
abbrev NodeTriple :=
  List TreeElementNode × List TextElementNode × List ScrollElementNode

/-- `Tree._get_nodes(node)` (tree/service.py): resolve the application
name, walk the tree from depth 0, and return the three per-category lists.
The source appends each classified node to the list of its category as it
is visited; this is equivalently the per-category projection of the single
visit-order element list. -/
def get_nodes {σ : Type} (g : UAGraph σ) (s : σ) : NodeTriple :=
  let app_name := resolve_app_name (g.attrs s)
  let elems := tree_traversal g app_name s 0
  (elems.filterMap fun e => match e with | .interactive x => some x | _ => none,
   elems.filterMap fun e => match e with | .informative x => some x | _ => none,
   elems.filterMap fun e => match e with | .scrollable x => some x | _ => none)

/-! ### Window enumeration (`Tree._get_appwise_nodes`, tree/service.py and
`Desktop.is_app_visible`, desktop/service.py) -/

/-- `Status` enum (desktop/views.py). -/
inductive Status where
  | MAXIMIZED
  | MINIMIZED
  | NORMAL
  | HIDDEN
deriving DecidableEq, Repr

/-- `Size` dataclass (desktop/views.py). -/
structure Size where
  width : Int
  height : Int
deriving DecidableEq, Repr

/-- `Size.area()` (desktop/views.py). -/
def Size.area (s : Size) : Int := s.width * s.height

/-- A top-level window as seen by the enumerator: its class name together
with the status and size that `Desktop._get_app_status` /
`Desktop._get_app_size` report for it. -/
structure AppWindow where
  ClassName : String
  status : Status
  size : Size
deriving DecidableEq, Repr

/-- `Desktop.is_app_visible(app)` (desktop/service.py): not minimized and
area strictly greater than 10. -/
def is_app_visible (w : AppWindow) : Bool :=
  decide (w.status ≠ Status.MINIMIZED) && decide (w.size.area > 10)

/-- The window-selection loop of `Tree._get_appwise_nodes`
(tree/service.py, lines 120-130), with the `found_foreground_app` flag
threaded explicitly: windows of an `EXCLUDED_APPS` class are always
selected; among the rest, a window is a foreground candidate when its
class is not in `AVOIDED_APPS` and it is visible, and only the first
candidate is selected. -/
def select_apps_loop : List AppWindow → Bool → List AppWindow
  | [], _ => []
  | w :: rest, found =>
    if w.ClassName ∈ EXCLUDED_APPS then
      w :: select_apps_loop rest found
    else if w.ClassName ∉ AVOIDED_APPS ∧ is_app_visible w then
      if found then select_apps_loop rest found
      else w :: select_apps_loop rest true
    else select_apps_loop rest found

/-- The applications selected for scanning from the root's children, in
order. -/
def select_apps (ws : List AppWindow) : List AppWindow :=
  select_apps_loop ws false

/-- The foreground-candidate test implicit in the `elif` branch of the
selection loop: not always-included, not avoided, and visible. -/
def foreground_candidate (w : AppWindow) : Bool :=
  decide (w.ClassName ∉ EXCLUDED_APPS) && decide (w.ClassName ∉ AVOIDED_APPS)
    && is_app_visible w

/-! ### Retry and aggregation (`Tree._get_appwise_nodes`,
tree/service.py) -/

/-- One application's retry loop, unrolled from the `while future_to_app`
/ `as_completed` loop of `Tree._get_appwise_nodes` (tree/service.py, lines
142-159) restricted to a single application: `outcome k` is the result of
the k-th attempt of `_get_nodes` for that application (`none` = the worker
raised).  On a failure the source increments `retry_counts[app]` and
resubmits only while the incremented count is strictly below
`THREAD_MAX_RETRIES`.  The fuel argument only bounds the recursion; with
fuel `THREAD_MAX_RETRIES` it is never exhausted. -/
def retry_loop (outcome : Nat → Option NodeTriple) :
    Nat → Nat → Option NodeTriple
  | 0, _ => none
  | fuel + 1, attempt =>
    match outcome attempt with
    | some r => some r
    | none =>
      if attempt + 1 < THREAD_MAX_RETRIES then
        retry_loop outcome fuel (attempt + 1)
      else none

/-- The contribution of one application to the scan: its first attempt,
retried per `retry_loop`; `none` means the application is dropped. -/
def run_app_with_retries (outcome : Nat → Option NodeTriple) :
    Option NodeTriple :=
  retry_loop outcome THREAD_MAX_RETRIES 0

/-- The aggregation step of `Tree._get_appwise_nodes` (tree/service.py):
each surviving application's triple is appended to the three output
sequences; a dropped application contributes nothing and raises nothing.
The source appends in completion order, which is unspecified; the list
order here is one determinization of it. -/
def aggregate_results (outcomes : List (Nat → Option NodeTriple)) :
    NodeTriple :=
  outcomes.foldl
    (fun acc oc =>
      match run_app_with_retries oc with
      | some r => (acc.1 ++ r.1, acc.2.1 ++ r.2.1, acc.2.2 ++ r.2.2)
      | none => acc)
    ([], [], [])

/-- `Tree._get_appwise_nodes` (tree/service.py), composed from window
selection and retried aggregation: `outcome` gives, for each selected
window, the per-attempt result of its traversal task. -/
def get_appwise_nodes (ws : List AppWindow)
    (outcome : AppWindow → Nat → Option NodeTriple) : NodeTriple :=
  aggregate_results ((select_apps ws).map outcome)

/-! ### Label addressing (server.py; spec §4.4/§6) -/

/-- The label-validity check and lookup shared by `tool_click_element`
(server.py, lines 705-713) and `tool_type_into_element` (server.py, lines
744-752): a label is rejected (`none`, surfaced by the source as a
descriptive error message and no action) unless `0 ≤ label <
len(interactive_nodes)`; an accepted label resolves to
`interactive_nodes[label]`. -/
def resolve_interactive_label (ts : TreeState) (label : Int) :
    Option TreeElementNode :=
  if label < 0 ∨ (ts.interactive_nodes.length : Int) ≤ label then none
  else ts.interactive_nodes.get? label.toNat

/-- An element resolved from a label together with its category. -/
inductive ResolvedElement where
  | interactive (e : TreeElementNode)
  | scrollable (e : ScrollElementNode)
deriving DecidableEq, Repr

/-- Modelled from the spec: `resolve(label) -> (category, element) | error`
of §6 with the label ranges of §4.4.  The interactive half (labels
`0 ≤ label < I`) is implemented under `src/` by the handlers embedded in
`resolve_interactive_label`; no code under `src/` implements the
scroll-state half (`I ≤ label < I + S`, resolving to the scrollable element
at position `label - I`), so that half is modelled from the spec's words
here. -/
def resolve (ts : TreeState) (label : Int) : Option ResolvedElement :=
  if 0 ≤ label ∧ label < (ts.interactive_nodes.length : Int) then
    (ts.interactive_nodes.get? label.toNat).map ResolvedElement.interactive
  else if (ts.interactive_nodes.length : Int) ≤ label ∧
      label < (ts.interactive_nodes.length : Int) +
        ts.scrollable_nodes.length then
    (ts.scrollable_nodes.get?
        (label - ts.interactive_nodes.length).toNat).map
      ResolvedElement.scrollable
  else none

/-! ### Annotator (`Tree.create_annotated_screenshot`, tree/service.py) -/

/-- Python `int()` applied to a rational: truncation toward zero. -/
def pyInt (q : ℚ) : Int := if 0 ≤ q then ⌊q⌋ else ⌈q⌉

/-- The scaled-and-padded rectangle computed for one annotation
(`adjusted_box` in `draw_annotation`, tree/service.py). -/
def adjusted_box (scale : ℚ) (b : BoundingBox) : Int × Int × Int × Int :=
  (pyInt (b.left * scale) + ANNOTATION_PADDING,
   pyInt (b.top * scale) + ANNOTATION_PADDING,
   pyInt (b.right * scale) + ANNOTATION_PADDING,
   pyInt (b.bottom * scale) + ANNOTATION_PADDING)

/-- The annotated image: its pixel dimensions and the list of drawn
annotations, each a label with its adjusted rectangle, in draw order.
Colors, the label badge geometry and the PNG encoding carry no claimed
structure and are omitted. -/
structure AnnotatedImage where
  width : Int
  height : Int
  annotations : List (Nat × (Int × Int × Int × Int))
deriving DecidableEq, Repr

/-- `Tree.create_annotated_screenshot(nodes, scale)` (tree/service.py):
pad the screenshot by `ANNOTATION_PADDING` on all sides, then for each
element, in enumeration (= label) order, attempt to draw its annotation;
the per-element `try/except` skips exactly the elements whose drawing
fails, which is modelled by the oracle `draw_ok`.  The routine always
returns a complete image. -/
def create_annotated_screenshot (screenshot_width screenshot_height : Int)
    (nodes : List TreeElementNode) (scale : ℚ)
    (draw_ok : Nat → TreeElementNode → Bool) : AnnotatedImage :=
  { width := screenshot_width + 2 * ANNOTATION_PADDING,
    height := screenshot_height + 2 * ANNOTATION_PADDING,
    annotations := nodes.enum.filterMap fun p =>
      if draw_ok p.1 p.2 then some (p.1, adjusted_box scale p.2.bounding_box)
      else none }

/-- The category assigned to a node by the classification chain, if any. -/
def classify_tag (app_name : String) (n : UANode) : Option UICategory :=
  (classify_node app_name n).map UIElement.tag

/-! ### Concrete inputs used by witnesses and counterexamples -/

/-- A sample bounding box (spec §8, Example 1): corners (10,10)-(50,30). -/
def sampleBox : BoundingBox := ⟨10, 10, 50, 30, 40, 20⟩

/-- A sample interactive element. -/
def sampleInteractive : TreeElementNode :=
  ⟨"OK", "button", "", "", sampleBox, ⟨30, 20⟩, "App", true, false⟩

/-- A sample scrollable element with vertical-only scroll at 40%. -/
def sampleScroll : ScrollElementNode :=
  ⟨"List", "list", "App", sampleBox, ⟨30, 20⟩, false, 0, true, 40, false⟩

/-- A sample snapshot with one interactive and one scrollable element. -/
def sampleState : TreeState := ⟨[sampleInteractive], [], [sampleScroll]⟩

/-- A node carrying no interesting attributes, used as the attribute map of
the cyclic graph below. -/
def blandNode : UANode :=
  ⟨"", "", "", "", "", ⟨0, 0, 0, 0⟩, false, false, false, false, false,
   none, none⟩

/-- A one-node accessibility graph with a self-loop: every node's only
child is itself, so the unfolded tree is infinitely deep. -/
def cyclicGraph : UAGraph Unit := ⟨fun _ => blandNode, fun _ => some [()]⟩

/-- A scrollable pane whose bounding rectangle is 2×2 pixels: area 4,
below `MIN_ELEMENT_AREA`, but not empty. -/
def smallScrollNode : UANode :=
  ⟨"Pane", "", "PaneControl", "pane", "", ⟨0, 0, 2, 2⟩, false, true, true,
   false, false, none, some ⟨false, 0, true, 30⟩⟩

/-- A single-application graph whose root is `smallScrollNode` with no
children. -/
def smallScrollGraph : UAGraph Unit := ⟨fun _ => smallScrollNode, fun _ => some []⟩

/-- An edit control that is simultaneously scrollable and interactive:
scroll pattern with a scrollable axis, interactive control type, visible
and enabled. -/
def scrollableEditNode : UANode :=
  ⟨"Notes", "", "EditControl", "edit", "", ⟨0, 0, 30, 30⟩, false, true, true,
   true, false, some "draft", some ⟨false, 0, true, 0⟩⟩

/-- A single-application graph whose root is an enabled OK button with box
(10,10)-(50,30) and no children. -/
def okButtonNode : UANode :=
  ⟨"OK", "", "ButtonControl", "button", "", ⟨10, 10, 50, 30⟩, false, true,
   true, true, false, none, none⟩

/-- The one-button application used by witnesses. -/
def okButtonGraph : UAGraph Unit := ⟨fun _ => okButtonNode, fun _ => some []⟩

/-- The interactive element the classifier produces for `okButtonNode`. -/
def okButtonElement : TreeElementNode :=
  ⟨"OK", "button", "", "", ⟨10, 10, 50, 30, 40, 20⟩, ⟨30, 20⟩, "OK", true,
   true⟩

/-! ## Helper lemmas -/

/-- Mapping a function of the index over an enumerated list is mapping it
over the index range. -/
theorem enum_map_label {α β : Type} (f : Nat → β) (l : List α) :
    l.enum.map (fun p => f p.1) = (List.range l.length).map f := by
  calc l.enum.map (fun p => f p.1)
      = (l.enum.map Prod.fst).map f := by rw [List.map_map]; rfl
    _ = (List.range l.length).map f := by rw [List.enum_map_fst]

/-! ## C4: dense contiguous labels -/

/-- C4: for every `TreeState` with `I` interactive and `S` scrollable
elements, the labels exposed in the serialized rows and the structured
dictionaries are exactly `0..I-1` for interactive elements by position and
`I..I+S-1` for scrollable elements (position offset by `I`); together they
are exactly the contiguous range `0..I+S-1` with no gaps and no
duplicates.  Informative rows carry no label cell. -/
theorem labels_contiguous (ts : TreeState) :
    (ts.interactiveRows.map List.head? =
      (List.range ts.interactive_nodes.length).map fun i =>
        some (toString i)) ∧
    (ts.scrollableRows.map List.head? =
      (List.range ts.scrollable_nodes.length).map fun i =>
        some (toString (ts.interactive_nodes.length + i))) ∧
    (ts.interactiveDicts.map InteractiveDict.label =
      List.range ts.interactive_nodes.length) ∧
    (ts.scrollableDicts.map ScrollDict.label =
      (List.range ts.scrollable_nodes.length).map
        fun i => ts.interactive_nodes.length + i) ∧
    (ts.interactiveDicts.map InteractiveDict.label ++
        ts.scrollableDicts.map ScrollDict.label =
      List.range (ts.interactive_nodes.length +
        ts.scrollable_nodes.length)) ∧
    (ts.interactiveDicts.map InteractiveDict.label ++
        ts.scrollableDicts.map ScrollDict.label).Nodup := by
  have h1 : ts.interactiveRows.map List.head? =
      (List.range ts.interactive_nodes.length).map fun i =>
        some (toString i) := by
    show (ts.interactive_nodes.enum.map fun p => p.2.to_row p.1).map
        List.head? = _
    rw [List.map_map]
    exact enum_map_label (fun i => some (toString i)) ts.interactive_nodes
  have h2 : ts.scrollableRows.map List.head? =
      (List.range ts.scrollable_nodes.length).map fun i =>
        some (toString (ts.interactive_nodes.length + i)) := by
    show (ts.scrollable_nodes.enum.map fun p =>
        p.2.to_row p.1 ts.interactive_nodes.length).map List.head? = _
    rw [List.map_map]
    exact enum_map_label
      (fun i => some (toString (ts.interactive_nodes.length + i)))
      ts.scrollable_nodes
  have h3 : ts.interactiveDicts.map InteractiveDict.label =
      List.range ts.interactive_nodes.length := by
    show (ts.interactive_nodes.enum.map fun p => p.2.to_dict p.1).map
        InteractiveDict.label = _
    rw [List.map_map]
    exact List.enum_map_fst ts.interactive_nodes
  have h4 : ts.scrollableDicts.map ScrollDict.label =
      (List.range ts.scrollable_nodes.length).map
        fun i => ts.interactive_nodes.length + i := by
    show (ts.scrollable_nodes.enum.map fun p =>
        p.2.to_dict p.1 ts.interactive_nodes.length).map ScrollDict.label = _
    rw [List.map_map]
    exact enum_map_label (fun i => ts.interactive_nodes.length + i)
      ts.scrollable_nodes
  have h5 : ts.interactiveDicts.map InteractiveDict.label ++
      ts.scrollableDicts.map ScrollDict.label =
      List.range (ts.interactive_nodes.length +
        ts.scrollable_nodes.length) := by
    rw [h3, h4, List.range_add]
  refine ⟨h1, h2, h3, h4, h5, ?_⟩
  rw [h5]
  exact List.nodup_range _

/-- A forced call, or a call at or past the freshness window, performs the
full scan and replaces the cache slot and timestamp wholesale. -/
theorem get_state_replaces (t : TreeService) (force : Bool) (now : ℚ)
    (scan_result : TreeState)
    (hf : force = true ∨ 2 ≤ now - t.last_scan_time) :
    Tree.get_state t force now scan_result =
      (scan_result, ⟨now, some scan_result⟩) := by
  unfold Tree.get_state
  rw [if_neg]
  rintro ⟨h1, h2⟩
  rcases hf with hf | hf
  · rw [hf] at h1; simp at h1
  · linarith

/-! ## C5: the freshness cache -/

/-- C5: a `get_state(force_refresh=false)` call within the 2-second
freshness window of a completed scan returns the cached snapshot
unchanged and leaves the slot untouched; a forced call, or a call at or
past the window, performs the full scan and replaces the slot and its
timestamp wholesale. -/
theorem cache_policy (t : TreeService) (now : ℚ) (scan_result : TreeState) :
    (∀ s, t.cached_state = some s → now - t.last_scan_time < 2 →
      Tree.get_state t false now scan_result = (s, t)) ∧
    (∀ force : Bool, force = true ∨ 2 ≤ now - t.last_scan_time →
      Tree.get_state t force now scan_result =
        (scan_result, ⟨now, some scan_result⟩)) := by
  constructor
  · intro s hs hlt
    unfold Tree.get_state
    rw [if_pos ⟨rfl, hlt⟩, hs]
  · intro force hf
    exact get_state_replaces t force now scan_result hf

/-- C5 witness: with a cached snapshot created at time 0, a plain call at
time 1 is a cache hit returning that snapshot; a forced call at time 1
rescans and replaces the slot. -/
theorem cache_policy_witness :
    Tree.get_state ⟨0, some sampleState⟩ false 1 TreeState.default =
      (sampleState, ⟨0, some sampleState⟩) ∧
    Tree.get_state ⟨0, some sampleState⟩ true 1 TreeState.default =
      (TreeState.default, ⟨1, some TreeState.default⟩) :=
  ⟨(cache_policy ⟨0, some sampleState⟩ 1 TreeState.default).1 sampleState rfl
      (by norm_num),
   (cache_policy ⟨0, some sampleState⟩ 1 TreeState.default).2 true
      (Or.inl rfl)⟩

/-! ## C10: a fresh Tree per tool call never serves the cache -/

/-- C10: `tool_get_desktop_state` constructs a brand-new `Tree` whose
last-scan timestamp is 0, so for any current time at least 2 seconds the
first `get_state` call performs a full scan regardless of
`force_refresh`, and successive tool invocations never reuse a cached
snapshot. -/
theorem fresh_tree_always_scans (force : Bool) (now : ℚ)
    (scan_result : TreeState) :
    Tree.init.last_scan_time = 0 ∧
    (2 ≤ now →
      Tree.get_state Tree.init force now scan_result =
        (scan_result, ⟨now, some scan_result⟩) ∧
      tool_get_desktop_state now scan_result =
        (scan_result, ⟨now, some scan_result⟩)) := by
  refine ⟨rfl, fun h2 => ⟨?_, ?_⟩⟩
  · exact get_state_replaces Tree.init force now scan_result
      (Or.inr (by simpa [Tree.init] using h2))
  · exact get_state_replaces Tree.init false now scan_result
      (Or.inr (by simpa [Tree.init] using h2))

/-- C10 witness: at time 5 both a forced and an unforced call on a fresh
`Tree` perform the scan, as does the tool handler. -/
theorem fresh_tree_always_scans_witness :
    Tree.get_state Tree.init true 5 sampleState =
      (sampleState, ⟨5, some sampleState⟩) ∧
    tool_get_desktop_state 5 sampleState =
      (sampleState, ⟨5, some sampleState⟩) :=
  ⟨((fresh_tree_always_scans true 5 sampleState).2 (by norm_num)).1,
   ((fresh_tree_always_scans false 5 sampleState).2 (by norm_num)).2⟩

/-! ## C1: the retry budget -/

/-- C1: evaluation of the per-application retry loop of
`_get_appwise_nodes`.  An application whose traversal raises on its first
three attempts and would succeed on a fourth is dropped: the source makes
at most 3 attempts in total (2 resubmissions), because `retry_counts` is
incremented before the `< THREAD_MAX_RETRIES` check.  An application
succeeding on its third attempt does contribute, and a fully failing
application contributes nothing to any output sequence while the scan
returns the other applications' results without raising. -/
theorem retry_attempt_count :
    run_app_with_retries
        (fun k => if 3 ≤ k then some ([sampleInteractive], [], [])
          else none) = none ∧
    run_app_with_retries
        (fun k => if 2 ≤ k then some ([sampleInteractive], [], [])
          else none) = some ([sampleInteractive], [], []) ∧
    aggregate_results
        [fun _ => none,
         fun k => if 2 ≤ k then some ([sampleInteractive], [], [])
           else none] = ([sampleInteractive], [], []) :=
  ⟨by decide, by decide, by decide⟩

/-! ## Classifier helper lemmas -/

/-- A node that passes the visibility test has a non-empty rectangle whose
area strictly exceeds the threshold. -/
theorem is_element_visible_area (n : UANode) (t : Int)
    (h : is_element_visible n t = true) :
    n.BoundingRectangle.isempty = false ∧
      t < n.BoundingRectangle.width * n.BoundingRectangle.height := by
  unfold is_element_visible at h
  split at h
  · simp at h
  · rename_i hne
    simp only [Bool.and_eq_true, decide_eq_true_eq] at h
    exact ⟨by simpa using hne, h.1.1⟩

/-- An interactive element produced by the classifier has bounding-box
area strictly above the minimum-area threshold. -/
theorem classify_node_interactive_area (a : String) (n : UANode)
    (x : TreeElementNode)
    (h : classify_node a n = some (.interactive x)) :
    MIN_ELEMENT_AREA < x.bounding_box.area := by
  unfold classify_node at h
  by_cases hs : is_element_scrollable n = true
  · rw [if_pos hs] at h
    split at h
    · by_cases hne : n.BoundingRectangle.isempty = true
      · rw [if_pos hne] at h; exact absurd h (by simp)
      · rw [if_neg hne] at h; exact absurd h (by simp)
    · exact absurd h (by simp)
  · rw [if_neg hs] at h
    by_cases hint : is_element_interactive n = true
    · rw [if_pos hint] at h
      have hvis : is_element_visible n MIN_ELEMENT_AREA = true := by
        simp only [is_element_interactive, Bool.and_eq_true] at hint
        exact hint.1.2
      obtain ⟨hne, harea⟩ := is_element_visible_area n MIN_ELEMENT_AREA hvis
      rw [hne] at h
      simp only [Bool.false_eq_true, if_false, Option.some.injEq,
        UIElement.interactive.injEq] at h
      subst h
      simpa [boxOfRect, BoundingBox.area] using harea
    · rw [if_neg hint] at h
      by_cases htext : is_element_text n = true
      · rw [if_pos htext] at h; exact absurd h (by simp)
      · rw [if_neg htext] at h; exact absurd h (by simp)

/-- A scrollable element produced by the classifier has strictly positive
bounding-box area (its rectangle is non-empty), but nothing more. -/
theorem classify_node_scrollable_area (a : String) (n : UANode)
    (x : ScrollElementNode)
    (h : classify_node a n = some (.scrollable x)) :
    0 < x.bounding_box.area := by
  unfold classify_node at h
  by_cases hs : is_element_scrollable n = true
  · rw [if_pos hs] at h
    split at h
    · by_cases hne : n.BoundingRectangle.isempty = true
      · rw [if_pos hne] at h; exact absurd h (by simp)
      · rw [if_neg hne] at h
        simp only [Option.some.injEq, UIElement.scrollable.injEq] at h
        subst h
        simp only [Rect.isempty, Bool.or_eq_true, decide_eq_true_eq,
          not_or, not_le] at hne
        simpa [boxOfRect, BoundingBox.area] using mul_pos hne.1 hne.2
    · exact absurd h (by simp)
  · rw [if_neg hs] at h
    by_cases hint : is_element_interactive n = true
    · rw [if_pos hint] at h
      by_cases hne : n.BoundingRectangle.isempty = true
      · rw [if_pos hne] at h; exact absurd h (by simp)
      · rw [if_neg hne] at h; exact absurd h (by simp)
    · rw [if_neg hint] at h
      by_cases htext : is_element_text n = true
      · rw [if_pos htext] at h; exact absurd h (by simp)
      · rw [if_neg htext] at h; exact absurd h (by simp)

/-- Every element produced by the capped walk is the classification of
some node. -/
theorem mem_tree_traversal_fuel (σ : Type) (g : UAGraph σ) (a : String) :
    ∀ (fuel : Nat) (s : σ) (e : UIElement),
      e ∈ tree_traversal_fuel g a fuel s →
      ∃ n : UANode, classify_node a n = some e := by
  intro fuel
  induction fuel with
  | zero => intro s e h; simp [tree_traversal_fuel] at h
  | succ f ih =>
    intro s e h
    simp only [tree_traversal_fuel, List.mem_append] at h
    rcases h with h | h
    · exact ⟨g.attrs s, Option.mem_def.1 (Option.mem_toList.1 h)⟩
    · rcases hc : g.children s with _ | cs
      · rw [hc] at h; simp at h
      · rw [hc] at h
        rcases List.mem_flatten.1 h with ⟨l, hl, hel⟩
        rcases List.mem_map.1 hl with ⟨c, _, rfl⟩
        exact ih c e hel

/-- The three per-category projections of a tagged element list partition
it: their lengths sum to the total. -/
theorem length_filterMap_tags (l : List UIElement) :
    (l.filterMap fun e =>
        match e with | .interactive x => some x | _ => none).length +
      (l.filterMap fun e =>
        match e with | .informative x => some x | _ => none).length +
      (l.filterMap fun e =>
        match e with | .scrollable x => some x | _ => none).length =
      l.length := by
  induction l with
  | nil => rfl
  | cons e rest ih => cases e <;> simp [List.filterMap_cons] <;> omega

/-! ## C2: the minimum-area invariant -/

/-- C2 counterexample: the scan of a single application whose root is a
scrollable pane with a 2×2-pixel rectangle produces a scrollable element
of bounding-box area 4, strictly below `MIN_ELEMENT_AREA = 10` — the
classifier's scrollable branch checks only that the rectangle is
non-empty, never the minimum-area threshold. -/
theorem scroll_area_counterexample :
    ((get_nodes smallScrollGraph ()).2.2.map fun x => x.bounding_box.area) =
      [4] ∧ ¬ MIN_ELEMENT_AREA ≤ 4 :=
  ⟨by decide, by decide⟩

/-- C2 (amended): every interactive element of a produced snapshot has
bounding-box area strictly greater than `MIN_ELEMENT_AREA` (hence > 0);
scrollable elements are only guaranteed a non-empty rectangle, i.e. area
strictly greater than 0 — the minimum-area threshold does not apply to
them. -/
theorem element_area_invariant (σ : Type) (g : UAGraph σ) (s : σ) :
    (∀ x ∈ (get_nodes g s).1, MIN_ELEMENT_AREA < x.bounding_box.area) ∧
    (∀ x ∈ (get_nodes g s).2.2, 0 < x.bounding_box.area) := by
  constructor
  · intro x hx
    simp only [get_nodes] at hx
    obtain ⟨e, he, hmatch⟩ := List.mem_filterMap.1 hx
    obtain ⟨n, hn⟩ :=
      mem_tree_traversal_fuel σ g (resolve_app_name (g.attrs s)) _ _ _ he
    cases e with
    | interactive y =>
      simp only [Option.some.injEq] at hmatch
      subst hmatch
      exact classify_node_interactive_area _ n _ hn
    | informative y => simp at hmatch
    | scrollable y => simp at hmatch
  · intro x hx
    simp only [get_nodes] at hx
    obtain ⟨e, he, hmatch⟩ := List.mem_filterMap.1 hx
    obtain ⟨n, hn⟩ :=
      mem_tree_traversal_fuel σ g (resolve_app_name (g.attrs s)) _ _ _ he
    cases e with
    | interactive y => simp at hmatch
    | informative y => simp at hmatch
    | scrollable y =>
      simp only [Option.some.injEq] at hmatch
      subst hmatch
      exact classify_node_scrollable_area _ n _ hn

/-- C2 witness: the one-button application yields an interactive element
whose area 800 exceeds the threshold, as the amended invariant states. -/
theorem element_area_invariant_witness :
    okButtonElement ∈ (get_nodes okButtonGraph ()).1 ∧
    MIN_ELEMENT_AREA < okButtonElement.bounding_box.area :=
  ⟨by decide,
   (element_area_invariant Unit okButtonGraph ()).1 okButtonElement
     (by decide)⟩

/-! ## C3: fixed-priority, mutually exclusive classification -/

/-- C3: classification is the fixed-priority first-match decision
Scrollable > Interactive > Informative > ignored: a node satisfying the
scrollable predicate is never classified interactive or informative (with
a non-empty rectangle it is classified scrollable even when the
interactive or informative predicates also hold); a non-scrollable node
satisfying the interactive predicate is classified interactive even when
the informative predicate also holds; and in a produced snapshot the
three sequences partition the classified elements, so no element appears
in more than one of them. -/
theorem classification_priority (a : String) (n : UANode) (σ : Type)
    (g : UAGraph σ) (s : σ) :
    (is_element_scrollable n = true →
      n.BoundingRectangle.isempty = false →
      classify_tag a n = some UICategory.scrollable) ∧
    (is_element_scrollable n = true →
      classify_tag a n = some UICategory.scrollable ∨
        classify_tag a n = none) ∧
    (is_element_scrollable n = false → is_element_interactive n = true →
      classify_tag a n = some UICategory.interactive) ∧
    ((get_nodes g s).1.length + (get_nodes g s).2.1.length +
        (get_nodes g s).2.2.length =
      (tree_traversal g (resolve_app_name (g.attrs s)) s 0).length) := by
  refine ⟨?_, ?_, ?_, ?_⟩
  · intro hs hne
    rcases hsp : n.scrollPattern with _ | sp
    · simp [is_element_scrollable, hsp] at hs
    · simp [classify_tag, classify_node, hs, hsp, hne, UIElement.tag]
  · intro hs
    rcases hsp : n.scrollPattern with _ | sp
    · simp [is_element_scrollable, hsp] at hs
    · by_cases hne : n.BoundingRectangle.isempty
      · right; simp [classify_tag, classify_node, hs, hsp, hne]
      · left;
        simp [classify_tag, classify_node, hs, hsp, hne, UIElement.tag]
  · intro hs hint
    have hvis : is_element_visible n MIN_ELEMENT_AREA = true := by
      simp only [is_element_interactive, Bool.and_eq_true] at hint
      exact hint.1.2
    have hne := (is_element_visible_area n MIN_ELEMENT_AREA hvis).1
    simp [classify_tag, classify_node, hs, hint, hne, UIElement.tag]
  · simp only [get_nodes]
    exact length_filterMap_tags _

/-- C3 witness: an edit control that satisfies both the scrollable and the
interactive predicates is classified scrollable — the higher-priority
rule wins. -/
theorem classification_priority_witness :
    is_element_scrollable scrollableEditNode = true ∧
    is_element_interactive scrollableEditNode = true ∧
    classify_tag "App" scrollableEditNode = some UICategory.scrollable :=
  ⟨by decide, by decide,
   (classification_priority "App" scrollableEditNode Unit cyclicGraph ()).1
     (by decide) (by decide)⟩

/-! ## C6: the hard depth cap -/

/-- Depths recorded by the capped walk are bounded by the starting depth
plus the fuel. -/
theorem visited_nodes_fuel_depth_lt (σ : Type) (g : UAGraph σ) :
    ∀ (fuel depth : Nat) (s : σ),
      ∀ p ∈ visited_nodes_fuel g fuel depth s, p.2 < depth + fuel := by
  intro fuel
  induction fuel with
  | zero => intro depth s p hp; simp [visited_nodes_fuel] at hp
  | succ f ih =>
    intro depth s p hp
    simp only [visited_nodes_fuel] at hp
    rcases List.mem_cons.1 hp with rfl | hp
    · omega
    · rcases hc : g.children s with _ | cs
      · rw [hc] at hp; simp at hp
      · rw [hc] at hp
        rcases List.mem_flatten.1 hp with ⟨l, hl, hpl⟩
        rcases List.mem_map.1 hl with ⟨c, _, rfl⟩
        have := ih (depth + 1) c p hpl
        omega

/-- The capped walk contributes at most one element per visited node. -/
theorem traversal_length_le_visited (σ : Type) (g : UAGraph σ) (a : String) :
    ∀ (fuel depth : Nat) (s : σ),
      (tree_traversal_fuel g a fuel s).length ≤
        (visited_nodes_fuel g fuel depth s).length := by
  intro fuel
  induction fuel with
  | zero => intro depth s; simp [tree_traversal_fuel, visited_nodes_fuel]
  | succ f ih =>
    intro depth s
    have h1 : (classify_node a (g.attrs s)).toList.length ≤ 1 := by
      cases classify_node a (g.attrs s) <;> simp
    rcases hc : g.children s with _ | cs
    · simp only [tree_traversal_fuel, visited_nodes_fuel, hc,
        List.length_append, List.length_cons, List.length_nil]
      omega
    · have h2 : ((cs.map (tree_traversal_fuel g a f)).flatten).length ≤
          ((cs.map (visited_nodes_fuel g f (depth + 1))).flatten).length := by
        rw [List.length_flatten, List.length_flatten, List.map_map,
          List.map_map]
        exact List.sum_le_sum fun c _ => ih (depth + 1) c
      simp only [tree_traversal_fuel, visited_nodes_fuel, hc,
        List.length_append, List.length_cons]
      omega

/-- C6: the walk of any accessibility graph — cyclic or arbitrarily deep —
visits only nodes at depth at most 20, a call at depth beyond the cap
classifies nothing and contributes no elements, and every contributed
element is accounted for by a visited node.  Termination holds by
construction: the walk is a total function of the fuel `21 - depth`. -/
theorem depth_cap (σ : Type) (g : UAGraph σ) (s : σ) :
    (∀ p ∈ visited_nodes g s 0, p.2 ≤ 20) ∧
    (∀ (a : String) (d : Nat), 20 < d → tree_traversal g a s d = []) ∧
    (∀ (a : String) (d : Nat),
      (tree_traversal g a s d).length ≤ (visited_nodes g s d).length) := by
  refine ⟨?_, ?_, ?_⟩
  · intro p hp
    have := visited_nodes_fuel_depth_lt σ g (21 - 0) 0 s p hp
    omega
  · intro a d hd
    have h0 : 21 - d = 0 := by omega
    simp [tree_traversal, h0, tree_traversal_fuel]
  · intro a d
    exact traversal_length_le_visited σ g a (21 - d) d s

/-- C6 witness: on the self-loop graph, whose unfolded tree is infinitely
deep, the root is visited at depth 0 ≤ 20, a call past the cap returns
nothing, and the walk (a total function) produces finitely many
elements. -/
theorem depth_cap_witness :
    (((), 0) ∈ visited_nodes cyclicGraph () 0 ∧ (0 : Nat) ≤ 20) ∧
    tree_traversal cyclicGraph "A" () 21 = [] ∧
    (tree_traversal cyclicGraph "A" () 0).length ≤
      (visited_nodes cyclicGraph () 0).length :=
  ⟨⟨by decide, (depth_cap Unit cyclicGraph ()).1 ((), 0) (by decide)⟩,
   (depth_cap Unit cyclicGraph ()).2.1 "A" 21 (by decide),
   (depth_cap Unit cyclicGraph ()).2.2 "A" 0⟩

/-! ## C7: window selection -/

/-- Unfolding of the foreground-candidate test. -/
theorem foreground_candidate_iff (w : AppWindow) :
    foreground_candidate w = true ↔
      w.ClassName ∉ EXCLUDED_APPS ∧ w.ClassName ∉ AVOIDED_APPS ∧
        is_app_visible w = true := by
  simp [foreground_candidate, and_assoc]

/-- Once the foreground application has been found, the selection loop
keeps only always-included window classes. -/
theorem select_apps_loop_found (ws : List AppWindow) (w : AppWindow) :
    w ∈ select_apps_loop ws true ↔
      w ∈ ws ∧ w.ClassName ∈ EXCLUDED_APPS := by
  induction ws with
  | nil => simp [select_apps_loop]
  | cons v rest ih =>
    by_cases hv : v.ClassName ∈ EXCLUDED_APPS
    · simp only [select_apps_loop]
      rw [if_pos hv]
      simp only [List.mem_cons, ih]
      constructor
      · rintro (rfl | ⟨h1, h2⟩)
        · exact ⟨Or.inl rfl, hv⟩
        · exact ⟨Or.inr h1, h2⟩
      · rintro ⟨rfl | h1, h2⟩
        · exact Or.inl rfl
        · exact Or.inr ⟨h1, h2⟩
    · simp only [select_apps_loop]
      rw [if_neg hv]
      by_cases hc : v.ClassName ∉ AVOIDED_APPS ∧ is_app_visible v = true
      · rw [if_pos hc, if_pos (by trivial), ih]
        simp only [List.mem_cons]
        constructor
        · rintro ⟨h1, h2⟩
          exact ⟨Or.inr h1, h2⟩
        · rintro ⟨rfl | h1, h2⟩
          · exact absurd h2 hv
          · exact ⟨h1, h2⟩
      · rw [if_neg hc, ih]
        simp only [List.mem_cons]
        constructor
        · rintro ⟨h1, h2⟩
          exact ⟨Or.inr h1, h2⟩
        · rintro ⟨rfl | h1, h2⟩
          · exact absurd h2 hv
          · exact ⟨h1, h2⟩

/-- C7: a window is selected for scanning exactly when its class is in the
always-include set `EXCLUDED_APPS` (regardless of visibility), or it is
the first window in enumeration order that is a foreground candidate —
i.e. not always-included, not in the avoid-list `AVOIDED_APPS`, and
passing the visibility test (not Minimized and area strictly above
10 px²).  Later visible windows are not selected. -/
theorem select_apps_mem (ws : List AppWindow) (w : AppWindow) :
    w ∈ select_apps ws ↔
      (w ∈ ws ∧ w.ClassName ∈ EXCLUDED_APPS) ∨
        ws.find? foreground_candidate = some w := by
  unfold select_apps
  induction ws with
  | nil => simp [select_apps_loop]
  | cons v rest ih =>
    by_cases hv : v.ClassName ∈ EXCLUDED_APPS
    · have hfc : ¬ foreground_candidate v = true := by
        rw [foreground_candidate_iff]
        rintro ⟨h1, _⟩
        exact h1 hv
      rw [List.find?_cons_of_neg _ hfc]
      simp only [select_apps_loop]
      rw [if_pos hv]
      simp only [List.mem_cons, ih]
      constructor
      · rintro (rfl | (⟨h1, h2⟩ | h3))
        · exact Or.inl ⟨Or.inl rfl, hv⟩
        · exact Or.inl ⟨Or.inr h1, h2⟩
        · exact Or.inr h3
      · rintro (⟨rfl | h1, h2⟩ | h3)
        · exact Or.inl rfl
        · exact Or.inr (Or.inl ⟨h1, h2⟩)
        · exact Or.inr (Or.inr h3)
    · by_cases hc : v.ClassName ∉ AVOIDED_APPS ∧ is_app_visible v = true
      · have hfc : foreground_candidate v = true := by
          rw [foreground_candidate_iff]
          exact ⟨hv, hc.1, hc.2⟩
        rw [List.find?_cons_of_pos _ hfc]
        simp only [select_apps_loop]
        rw [if_neg hv, if_pos hc, if_neg (by simp : ¬ false = true)]
        simp only [List.mem_cons, select_apps_loop_found rest w]
        constructor
        · rintro (rfl | ⟨h1, h2⟩)
          · exact Or.inr rfl
          · exact Or.inl ⟨Or.inr h1, h2⟩
        · rintro (⟨rfl | h1, h2⟩ | h3)
          · exact absurd h2 hv
          · exact Or.inr ⟨h1, h2⟩
          · exact Or.inl (Option.some.inj h3).symm
      · have hfc : ¬ foreground_candidate v = true := by
          rw [foreground_candidate_iff]
          rintro ⟨_, h2, h3⟩
          exact hc ⟨h2, h3⟩
        rw [List.find?_cons_of_neg _ hfc]
        simp only [select_apps_loop]
        rw [if_neg hv, if_neg hc, ih]
        simp only [List.mem_cons]
        constructor
        · rintro (⟨h1, h2⟩ | h3)
          · exact Or.inl ⟨Or.inr h1, h2⟩
          · exact Or.inr h3
        · rintro (⟨rfl | h1, h2⟩ | h3)
          · exact absurd h2 hv
          · exact Or.inl ⟨h1, h2⟩
          · exact Or.inr h3

/-! ## C8: label addressing -/

/-- C8: at the label-addressing boundary, the handlers embedded in
`resolve_interactive_label` accept a label exactly when
`0 ≤ label < I` and resolve it to the interactive element at that
position, rejecting anything else with an error result and no action;
the (spec-modelled) `resolve` accepts exactly the labels
`0 ≤ label < I + S`, resolving interactive labels by position, a
scroll-state label `I ≤ label < I + S` to the scrollable element at
position `label - I`, and in particular `label = I` to the first
scrollable element, never an interactive one. -/
theorem label_addressing (ts : TreeState) (label : Int) :
    ((resolve_interactive_label ts label).isSome = true ↔
      0 ≤ label ∧ label < (ts.interactive_nodes.length : Int)) ∧
    (0 ≤ label → label < (ts.interactive_nodes.length : Int) →
      resolve_interactive_label ts label =
        ts.interactive_nodes.get? label.toNat) ∧
    ((resolve ts label).isSome = true ↔
      0 ≤ label ∧
        label < (ts.interactive_nodes.length : Int) +
          ts.scrollable_nodes.length) ∧
    (0 ≤ label → label < (ts.interactive_nodes.length : Int) →
      resolve ts label =
        (ts.interactive_nodes.get? label.toNat).map
          ResolvedElement.interactive) ∧
    ((ts.interactive_nodes.length : Int) ≤ label →
      label < (ts.interactive_nodes.length : Int) +
        ts.scrollable_nodes.length →
      resolve ts label =
        (ts.scrollable_nodes.get?
            (label - ts.interactive_nodes.length).toNat).map
          ResolvedElement.scrollable) ∧
    (resolve ts (ts.interactive_nodes.length : Int) =
      ts.scrollable_nodes.head?.map ResolvedElement.scrollable) := by
  refine ⟨?_, ?_, ?_, ?_, ?_, ?_⟩
  · by_cases hcond : label < 0 ∨ (ts.interactive_nodes.length : Int) ≤ label
    · simp only [resolve_interactive_label, if_pos hcond, Option.isSome_none]
      refine ⟨fun hF => absurd hF (by simp), fun hr => ?_⟩
      obtain ⟨h1, h2⟩ := hr
      exact absurd hcond (by omega)
    · push_neg at hcond
      simp only [resolve_interactive_label,
        if_neg (by omega : ¬ (label < 0 ∨
          (ts.interactive_nodes.length : Int) ≤ label))]
      have hlt : label.toNat < ts.interactive_nodes.length := by omega
      rw [List.get?_eq_get hlt]
      simp only [Option.isSome_some, true_iff]
      omega
  · intro h1 h2
    simp only [resolve_interactive_label,
      if_neg (by omega : ¬ (label < 0 ∨
        (ts.interactive_nodes.length : Int) ≤ label))]
  · by_cases h1 : 0 ≤ label ∧ label < (ts.interactive_nodes.length : Int)
    · unfold resolve
      rw [if_pos h1]
      have hlt : label.toNat < ts.interactive_nodes.length := by omega
      rw [List.get?_eq_get hlt]
      simp only [Option.map_some', Option.isSome_some, true_iff]
      omega
    · by_cases h2 : (ts.interactive_nodes.length : Int) ≤ label ∧
          label < (ts.interactive_nodes.length : Int) +
            ts.scrollable_nodes.length
      · unfold resolve
        rw [if_neg h1, if_pos h2]
        have hlt : (label - ts.interactive_nodes.length).toNat <
            ts.scrollable_nodes.length := by omega
        rw [List.get?_eq_get hlt]
        simp only [Option.map_some', Option.isSome_some, true_iff]
        omega
      · unfold resolve
        rw [if_neg h1, if_neg h2]
        simp only [Option.isSome_none]
        constructor
        · intro hF; exact absurd hF (by simp)
        · intro hr; exact absurd hr (by omega)
  · intro h1 h2
    unfold resolve
    rw [if_pos ⟨h1, h2⟩]
  · intro h1 h2
    unfold resolve
    rw [if_neg (by omega : ¬ (0 ≤ label ∧
        label < (ts.interactive_nodes.length : Int))), if_pos ⟨h1, h2⟩]
  · unfold resolve
    rw [if_neg (by omega : ¬ (0 ≤ (ts.interactive_nodes.length : Int) ∧
        (ts.interactive_nodes.length : Int) <
          (ts.interactive_nodes.length : Int)))]
    rcases ts.scrollable_nodes with _ | ⟨a, l⟩
    · rw [if_neg]
      · simp
      · simp only [List.length_nil]
        omega
    · rw [if_pos]
      · rw [Int.sub_self]
        simp [Int.toNat_zero]
      · simp only [List.length_cons]
        constructor
        · omega
        · push_cast
          omega

/-- C8 witness: with one interactive and one scrollable element, label 0
resolves to the interactive element and label 1 (= I) resolves to the
first scrollable element. -/
theorem label_addressing_witness :
    resolve_interactive_label sampleState 0 =
      sampleState.interactive_nodes.get? 0 ∧
    resolve sampleState 0 =
      (sampleState.interactive_nodes.get? 0).map
        ResolvedElement.interactive ∧
    resolve sampleState 1 =
      (sampleState.scrollable_nodes.get? 0).map
        ResolvedElement.scrollable :=
  ⟨(label_addressing sampleState 0).2.1 (by decide) (by decide),
   (label_addressing sampleState 0).2.2.2.1 (by decide) (by decide),
   (label_addressing sampleState 1).2.2.2.2.1 (by decide) (by decide)⟩

/-! ## C9: the annotator -/

/-- Mapping the first projection over a guarded `filterMap` that keeps the
first projection yields a sublist of the original first projections. -/
theorem filterMap_guard_map_fst_sublist {α β : Type} (ok : Nat × α → Bool)
    (f : Nat × α → β) (l : List (Nat × α)) :
    ((l.filterMap fun p =>
        if ok p then some (p.1, f p) else none).map Prod.fst).Sublist
      (l.map Prod.fst) := by
  induction l with
  | nil => simp
  | cons p rest ih =>
    by_cases hp : ok p = true
    · simp only [List.filterMap_cons, hp, if_pos, List.map_cons]
      exact ih.cons₂ p.1
    · simp only [List.filterMap_cons, hp, Bool.false_eq_true, if_false,
        List.map_cons]
      exact ih.cons p.1

/-- C9: for every element list (including the empty one) and every scale,
the annotation routine returns a complete image padded by the fixed
margin on all sides; annotating the empty list draws zero boxes; an
element whose drawing succeeds is annotated with its own label and
scaled-padded rectangle; a drawing failure skips only that element, the
drawn labels remaining in label order within `0..len-1`. -/
theorem annotator_robust (w h : Int) (nodes : List TreeElementNode)
    (scale : ℚ) (draw_ok : Nat → TreeElementNode → Bool) :
    (create_annotated_screenshot w h nodes scale draw_ok).width =
      w + 2 * ANNOTATION_PADDING ∧
    (create_annotated_screenshot w h nodes scale draw_ok).height =
      h + 2 * ANNOTATION_PADDING ∧
    (create_annotated_screenshot w h [] scale draw_ok).annotations = [] ∧
    (∀ i, ∀ hi : i < nodes.length,
      draw_ok i nodes[i] = true →
      (i, adjusted_box scale nodes[i].bounding_box) ∈
        (create_annotated_screenshot w h nodes scale draw_ok).annotations) ∧
    ((create_annotated_screenshot w h nodes scale draw_ok).annotations.map
      Prod.fst).Sublist (List.range nodes.length) := by
  refine ⟨rfl, rfl, rfl, ?_, ?_⟩
  · intro i hi hok
    apply List.mem_filterMap.2
    have hi' : i < nodes.enum.length := by simpa using hi
    refine ⟨nodes.enum[i], List.getElem_mem hi', ?_⟩
    rw [List.getElem_enum]
    simp [hok]
  · have hfst : (create_annotated_screenshot w h nodes scale
        draw_ok).annotations.map Prod.fst =
        ((nodes.enum.filterMap fun p =>
          if draw_ok p.1 p.2 then
            some (p.1, adjusted_box scale p.2.bounding_box)
          else none).map Prod.fst) := rfl
    rw [hfst]
    have := filterMap_guard_map_fst_sublist
      (fun p => draw_ok p.1 p.2)
      (fun p => adjusted_box scale p.2.bounding_box) nodes.enum
    rw [List.enum_map_fst] at this
    exact this

/-- C9 witness: a one-element list with a succeeding draw yields its
annotation at label 0. -/
theorem annotator_robust_witness :
    (0, adjusted_box (7/10) sampleInteractive.bounding_box) ∈
      (create_annotated_screenshot 100 50 [sampleInteractive] (7/10)
        fun _ _ => true).annotations :=
  (annotator_robust 100 50 [sampleInteractive] (7/10)
      fun _ _ => true).2.2.2.1 0 (by decide) rfl

end WindowsMCP
